import Mathlib

/-!
Verification development for the funtoo portage core:
the profile cascade resolver (`LocationsManager._addProfile` and the
surrounding `LocationsManager.__init__` logic from
`pym/portage/package/ebuild/_config/LocationsManager.py`),
the repository synchronizer (`action_sync` from `pym/_emerge/funtoo.py`),
and the atom-resolution / uninstall dispatch logic (`action_uninstall`
from `pym/_emerge/funtoo.py`).

Each python function is shallowly embedded as an executable Lean
definition; external collaborators (filesystem probes, external process
exit statuses, the installed-package index) are modelled as explicit
oracle fields of environment structures, so the control flow of the
embedded code is exactly the control flow of the source.
-/

namespace Funtoo

/-! ## Profile cascade resolver (`LocationsManager._addProfile`)

The resolver walks a graph of profile directories.  Each directory may
carry an `eapi` marker file (first line, stripped, checked against the
supported set) and a `parent` marker file (ordered list of non-blank
lines, each joined with the current directory and normalized).  The
filesystem and the external helpers (`eapi_is_supported`,
`normalize_path`/`os.path.join`, `os.path.exists`) are modelled as
oracle functions in `ProfileFS`. -/

/-- Errors raised by `_addProfile` (python `ParseError` variants):
unsupported EAPI, empty parent file, dangling parent reference. -/
inductive PError where
  | unsupportedEAPI : String → String → PError
  | emptyParentFile : String → PError
  | parentNotFound : String → String → PError
deriving DecidableEq

/-- Filesystem / collaborator oracle for the profile cascade resolver.
`eapiLine cur` is the stripped first line of the `eapi` file in profile
directory `cur` (`none` when the file is absent or unreadable — the code
ignores `IOError`); `parentRaw cur` is the raw line list of the `parent`
file (`none` when absent); `normJoin cur p` models
`normalize_path(os.path.join(cur, p))`; `pexists` models
`os.path.exists`; `eapiSupported` models `eapi_is_supported`. -/
structure ProfileFS where
  eapiLine : String → Option String
  eapiSupported : String → Bool
  parentRaw : String → Option (List String)
  normJoin : String → String → String
  pexists : String → Bool

/-- A line consisting solely of whitespace characters. -/
def isBlankLine (s : String) : Bool :=
  s.data.all (fun c => c.isWhitespace)

/-- Modelled from the spec: `portage.util.grabfile` is not among the
provided sources; per the spec the `parent` marker is read as "an
ordered list of non-blank lines" (blank lines ignored). -/
def grabfile (lines : List String) : List String :=
  lines.filter (fun l => !(isBlankLine l))

deriving instance DecidableEq for Except

/-- Result of a resolver run: `none` models non-termination (fuel ran
out; the source performs unbounded recursion), `some (Except.error e)`
models a raised `ParseError`, `some (Except.ok l)` models a normal
return with `self.profiles = l`. -/
abbrev PResult := Option (Except PError (List String))

/-- The parent-iteration loop of `_addProfile`: for each entry of the
`parent` file, join it with the current directory, recurse if the
resulting path exists, raise `ParseError` otherwise.  `rec` is the
recursive call (the accumulated profile list is threaded through,
modelling the `self.profiles.append` mutation). -/
def parentFold (fs : ProfileFS) (rec : String → List String → PResult)
    (cur : String) (ps : List String) (st : PResult) : PResult :=
  ps.foldl (fun st p =>
    match st with
    | some (Except.ok acc) =>
      let pp := fs.normJoin cur p
      if fs.pexists pp then rec pp acc
      else some (Except.error (PError.parentNotFound pp cur))
    | other => other) st

/-- Shallow embedding of `LocationsManager._addProfile`.  `fuel` bounds
the recursion depth (the source recurses without any cycle detection);
`acc` is the current value of `self.profiles`.  Order of operations
follows the source: EAPI check first, then the parent file (an existing
but empty parent list is a fatal `ParseError`), then the recursive
parent walk, then `self.profiles.append(currentPath)`. -/
def addProfile (fs : ProfileFS) : Nat → String → List String → PResult
  | 0, _, _ => none
  | fuel+1, cur, acc =>
    let eapiErr : Option PError :=
      match fs.eapiLine cur with
      | none => none
      | some e => if fs.eapiSupported e then none else some (PError.unsupportedEAPI e cur)
    match eapiErr with
    | some err => some (Except.error err)
    | none =>
      match fs.parentRaw cur with
      | none => some (Except.ok (acc ++ [cur]))
      | some raw =>
        let parents := grabfile raw
        if parents = [] then some (Except.error (PError.emptyParentFile cur))
        else
          match parentFold fs (fun pp acc => addProfile fs fuel pp acc) cur parents
              (some (Except.ok acc)) with
          | some (Except.ok acc) => some (Except.ok (acc ++ [cur]))
          | other => other

/-- The EAPI gate of `_addProfile` as a boolean: true when the `eapi`
marker is absent or names a supported EAPI. -/
def eapiOK (fs : ProfileFS) (cur : String) : Bool :=
  match fs.eapiLine cur with
  | none => true
  | some e => fs.eapiSupported e

/-- `p` is listed (after join/normalization) in the `parent` marker file
of profile directory `c`. -/
def IsParent (fs : ProfileFS) (c p : String) : Prop :=
  ∃ raw, fs.parentRaw c = some raw ∧ p ∈ (grabfile raw).map (fs.normJoin c)

/-- `a` is a strict ancestor of `b` along `parent` references. -/
def Ancestor (fs : ProfileFS) (a b : String) : Prop :=
  Relation.TransGen (fun x y => IsParent fs y x) a b

theorem except_map_ok {α β ε : Type} (f : α → β) (a : α) :
    Except.map f (Except.ok a : Except ε α) = Except.ok (f a) := rfl

theorem except_map_err {α β ε : Type} (f : α → β) (e : ε) :
    Except.map f (Except.error e : Except ε α) = Except.error e := rfl

theorem parentFold_nil (fs : ProfileFS) (rec : String → List String → PResult)
    (cur : String) (st : PResult) : parentFold fs rec cur [] st = st := rfl

theorem parentFold_cons (fs : ProfileFS) (rec : String → List String → PResult)
    (cur p : String) (ps : List String) (st : PResult) :
    parentFold fs rec cur (p :: ps) st =
      parentFold fs rec cur ps
        (match st with
         | some (Except.ok acc) =>
           if fs.pexists (fs.normJoin cur p) then rec (fs.normJoin cur p) acc
           else some (Except.error (PError.parentNotFound (fs.normJoin cur p) cur))
         | other => other) := rfl

theorem parentFold_none (fs : ProfileFS) (rec : String → List String → PResult)
    (cur : String) (ps : List String) : parentFold fs rec cur ps none = none := by
  induction ps with
  | nil => rfl
  | cons p ps ih => rw [parentFold_cons]; exact ih

theorem parentFold_err (fs : ProfileFS) (rec : String → List String → PResult)
    (cur : String) (ps : List String) (e : PError) :
    parentFold fs rec cur ps (some (Except.error e)) = some (Except.error e) := by
  induction ps with
  | nil => rfl
  | cons p ps ih => rw [parentFold_cons]; exact ih

/-- The accumulated profile list only enters the run as a prefix of the
output: running the loop on `acc` equals running it on `[]` and
prepending `acc`. -/
theorem parentFold_shift (fs : ProfileFS) (rec : String → List String → PResult)
    (cur : String)
    (hrec : ∀ pp acc, rec pp acc =
      Option.map (Except.map (fun l => acc ++ l)) (rec pp [])) :
    ∀ (ps : List String) (acc : List String),
      parentFold fs rec cur ps (some (Except.ok acc)) =
        Option.map (Except.map (fun l => acc ++ l))
          (parentFold fs rec cur ps (some (Except.ok []))) := by
  intro ps
  induction ps with
  | nil => intro acc; simp [parentFold_nil, except_map_ok]
  | cons p ps ih =>
    intro acc
    rw [parentFold_cons, parentFold_cons]
    by_cases hex : fs.pexists (fs.normJoin cur p)
    · simp only [hex, if_true]
      rw [hrec (fs.normJoin cur p) acc]
      cases h0 : rec (fs.normJoin cur p) [] with
      | none => simp [parentFold_none]
      | some r =>
        cases r with
        | error e => simp [except_map_err, parentFold_err]
        | ok l =>
          simp only [Option.map, except_map_ok]
          rw [ih (acc ++ l), ih l]
          cases parentFold fs rec cur ps (some (Except.ok [])) with
          | none => rfl
          | some r2 =>
            cases r2 with
            | error e2 => rfl
            | ok l2 => simp [except_map_ok, List.append_assoc]
    · simp only [hex, if_false]
      simp [parentFold_err, except_map_err]

/-- `addProfile` version of `parentFold_shift`: the accumulator is a
pure prefix of the result. -/
theorem addProfile_shift (fs : ProfileFS) :
    ∀ (fuel : Nat) (cur : String) (acc : List String),
      addProfile fs fuel cur acc =
        Option.map (Except.map (fun l => acc ++ l)) (addProfile fs fuel cur []) := by
  intro fuel
  induction fuel with
  | zero => intro cur acc; rfl
  | succ fuel ih =>
    intro cur acc
    show addProfile fs (fuel + 1) cur acc = _
    simp only [addProfile]
    cases heapi : fs.eapiLine cur with
    | some e =>
      by_cases hsup : fs.eapiSupported e
      · simp only [hsup, if_true]
        cases hpar : fs.parentRaw cur with
        | none => simp [except_map_ok]
        | some raw =>
          by_cases hemp : grabfile raw = []
          · simp [hemp, except_map_err]
          · simp only [hemp, if_false]
            rw [parentFold_shift fs _ cur ih (grabfile raw) acc]
            cases parentFold fs (fun pp acc => addProfile fs fuel pp acc) cur
                (grabfile raw) (some (Except.ok [])) with
            | none => rfl
            | some r =>
              cases r with
              | error e2 => rfl
              | ok l => simp [except_map_ok, List.append_assoc]
      · simp [hsup, except_map_err]
    | none =>
      cases hpar : fs.parentRaw cur with
      | none => simp [except_map_ok]
      | some raw =>
        by_cases hemp : grabfile raw = []
        · simp [hemp, except_map_err]
        · simp only [hemp, if_false]
          rw [parentFold_shift fs _ cur ih (grabfile raw) acc]
          cases parentFold fs (fun pp acc => addProfile fs fuel pp acc) cur
              (grabfile raw) (some (Except.ok [])) with
          | none => rfl
          | some r =>
            cases r with
            | error e2 => rfl
            | ok l => simp [except_map_ok, List.append_assoc]

/-- Successful-run inversion for the parent loop: the output is the
input accumulator followed by one contiguous block per parent entry,
each block being the `[]`-based result of the recursive call on that
(existing) parent path, in parent-file order. -/
theorem parentFold_ok_inv (fs : ProfileFS) (rec : String → List String → PResult)
    (cur : String)
    (hrec : ∀ pp acc, rec pp acc =
      Option.map (Except.map (fun l => acc ++ l)) (rec pp [])) :
    ∀ (ps acc res : List String),
      parentFold fs rec cur ps (some (Except.ok acc)) = some (Except.ok res) →
      ∃ blocks : List (List String), res = acc ++ blocks.flatten ∧
        List.Forall₂ (fun p B => fs.pexists (fs.normJoin cur p) = true ∧
          rec (fs.normJoin cur p) [] = some (Except.ok B)) ps blocks := by
  intro ps
  induction ps with
  | nil =>
    intro acc res h
    rw [parentFold_nil] at h
    have hacc : acc = res := Except.ok.inj (Option.some.inj h)
    refine ⟨[], ?_, List.Forall₂.nil⟩
    simp [hacc]
  | cons p ps ih =>
    intro acc res h
    rw [parentFold_cons] at h
    replace h : parentFold fs rec cur ps
        (if fs.pexists (fs.normJoin cur p) = true then rec (fs.normJoin cur p) acc
         else some (Except.error (PError.parentNotFound (fs.normJoin cur p) cur))) =
        some (Except.ok res) := h
    by_cases hex : fs.pexists (fs.normJoin cur p)
    · rw [if_pos hex, hrec (fs.normJoin cur p) acc] at h
      cases h0 : rec (fs.normJoin cur p) [] with
      | none =>
        rw [h0] at h
        simp only [Option.map] at h
        rw [parentFold_none] at h
        exact absurd h (by simp)
      | some r =>
        cases r with
        | error e =>
          rw [h0] at h
          simp only [Option.map, except_map_err] at h
          rw [parentFold_err] at h
          exact absurd h (by simp)
        | ok B0 =>
          rw [h0] at h
          simp only [Option.map, except_map_ok] at h
          obtain ⟨blocks, hres, hall⟩ := ih (acc ++ B0) res h
          exact ⟨B0 :: blocks, by simp [hres, List.append_assoc],
            List.Forall₂.cons ⟨hex, h0⟩ hall⟩
    · rw [if_neg hex] at h
      rw [parentFold_err] at h
      exact absurd h (by simp)

/-- Unfolding lemma: a profile whose `eapi` marker is absent or names
an unsupported EAPI fails immediately with `UnsupportedEAPI`. -/
theorem addProfile_succ_eapiErr (fs : ProfileFS) (fuel : Nat) (cur : String)
    (acc : List String) (e : String) (heapi : fs.eapiLine cur = some e)
    (hbad : fs.eapiSupported e = false) :
    addProfile fs (fuel + 1) cur acc =
      some (Except.error (PError.unsupportedEAPI e cur)) := by
  simp [addProfile, heapi, hbad]

/-- Unfolding lemma for `addProfile` when the EAPI gate passes. -/
theorem addProfile_succ_of_eapiOK (fs : ProfileFS) (fuel : Nat) (cur : String)
    (acc : List String) (hok : eapiOK fs cur = true) :
    addProfile fs (fuel + 1) cur acc =
      match fs.parentRaw cur with
      | none => some (Except.ok (acc ++ [cur]))
      | some raw =>
        if grabfile raw = [] then some (Except.error (PError.emptyParentFile cur))
        else
          match parentFold fs (fun pp a => addProfile fs fuel pp a) cur
              (grabfile raw) (some (Except.ok acc)) with
          | some (Except.ok acc2) => some (Except.ok (acc2 ++ [cur]))
          | other => other := by
  unfold eapiOK at hok
  cases heapi : fs.eapiLine cur with
  | none => simp [addProfile, heapi]
  | some e =>
    rw [heapi] at hok
    replace hok : fs.eapiSupported e = true := hok
    simp [addProfile, heapi, hok]

/-- A successful run implies the EAPI gate passed. -/
theorem eapiOK_of_ok (fs : ProfileFS) (fuel : Nat) (cur : String)
    (acc l : List String)
    (h : addProfile fs (fuel + 1) cur acc = some (Except.ok l)) :
    eapiOK fs cur = true := by
  unfold eapiOK
  cases heapi : fs.eapiLine cur with
  | none => rfl
  | some e =>
    by_cases hsup : fs.eapiSupported e
    · exact hsup
    · rw [addProfile_succ_eapiErr fs fuel cur acc e heapi (by simpa using hsup)] at h
      exact absurd h (by simp)

/-- Successful-run inversion for `addProfile` started on an empty list:
either the profile is a leaf (no `parent` file) and the output is just
itself, or the output is the concatenation of the recursive results for
each (existing) parent entry, in parent-file order, followed by the
profile itself. -/
theorem addProfile_ok_inv (fs : ProfileFS) (fuel : Nat) (cur : String)
    (l : List String)
    (h : addProfile fs (fuel + 1) cur [] = some (Except.ok l)) :
    eapiOK fs cur = true ∧
      ((fs.parentRaw cur = none ∧ l = [cur]) ∨
       (∃ raw blocks, fs.parentRaw cur = some raw ∧ grabfile raw ≠ [] ∧
         List.Forall₂ (fun p B => fs.pexists (fs.normJoin cur p) = true ∧
           addProfile fs fuel (fs.normJoin cur p) [] = some (Except.ok B))
           (grabfile raw) blocks ∧
         l = blocks.flatten ++ [cur])) := by
  have hok : eapiOK fs cur = true := eapiOK_of_ok fs fuel cur [] l h
  refine ⟨hok, ?_⟩
  rw [addProfile_succ_of_eapiOK fs fuel cur [] hok] at h
  split at h
  · next hpar =>
    left
    exact ⟨hpar, by simpa using (Except.ok.inj (Option.some.inj h)).symm⟩
  · next raw hpar =>
    split at h
    · exact absurd h (by simp)
    · next hemp =>
      split at h
      · next acc2 hfold =>
        obtain ⟨blocks, hres, hall⟩ :=
          parentFold_ok_inv fs _ cur (fun pp a => addProfile_shift fs fuel pp a)
            (grabfile raw) [] acc2 hfold
        right
        refine ⟨raw, blocks, hpar, hemp, hall, ?_⟩
        have hacc : acc2 ++ [cur] = l := Except.ok.inj (Option.some.inj h)
        rw [← hacc, hres]
        simp
      · next other hne hoth =>
        exact absurd h (hoth l)

/-- Every successful `addProfile` run ends with the directory it was
started on (`self.profiles.append(currentPath)` is the last step). -/
theorem addProfile_last (fs : ProfileFS) :
    ∀ (fuel : Nat) (cur : String) (l : List String),
      addProfile fs fuel cur [] = some (Except.ok l) →
      ∃ l0, l = l0 ++ [cur] := by
  intro fuel cur l h
  cases fuel with
  | zero => exact absurd h (by simp [addProfile])
  | succ fuel =>
    rcases (addProfile_ok_inv fs fuel cur l h).2 with ⟨_, hl⟩ | ⟨_, blocks, _, _, _, hl⟩
    · exact ⟨[], by simp [hl]⟩
    · exact ⟨blocks.flatten, hl⟩

/-- Splitting a snoc list at an arbitrary position: the position is
either the final element or inside the initial segment. -/
theorem split_snoc {α : Type} (A : List α) (y : α) :
    ∀ (pre : List α) (x : α) (suf : List α), pre ++ x :: suf = A ++ [y] →
      (pre = A ∧ x = y ∧ suf = []) ∨
      (∃ suf2, suf = suf2 ++ [y] ∧ A = pre ++ x :: suf2) := by
  intro pre x suf h
  rcases List.eq_nil_or_concat suf with hnil | ⟨suf2, a, hconc⟩
  · subst hnil
    have hlen : pre.length = A.length := by
      have hl := congrArg List.length h
      simp at hl
      omega
    obtain ⟨h1, h2⟩ := List.append_inj h (by simpa using hlen)
    exact Or.inl ⟨h1, by simpa using h2, rfl⟩
  · rw [List.concat_eq_append] at hconc
    subst hconc
    rw [show pre ++ x :: (suf2 ++ [a]) = (pre ++ x :: suf2) ++ [a] by simp] at h
    have hlen : (pre ++ x :: suf2).length = A.length := by
      have hl := congrArg List.length h
      simp at hl
      simp
      omega
    obtain ⟨h1, h2⟩ := List.append_inj h (by simpa using hlen)
    have ha : a = y := by simpa using h2
    exact Or.inr ⟨suf2, by rw [ha], h1.symm⟩

/-- Splitting a flattened list of blocks at an arbitrary position:
the position lies inside one block, and everything before it is the
earlier blocks plus that block's own prefix. -/
theorem flatten_split {α : Type} :
    ∀ (blocks : List (List α)) (pre : List α) (x : α) (suf : List α),
      blocks.flatten = pre ++ x :: suf →
      ∃ bs1 B bs2 p1 s1, blocks = bs1 ++ B :: bs2 ∧ B = p1 ++ x :: s1 ∧
        pre = bs1.flatten ++ p1 := by
  intro blocks
  induction blocks with
  | nil =>
    intro pre x suf h
    simp only [List.flatten_nil] at h
    exact absurd h.symm (by simp)
  | cons B0 bs ih =>
    intro pre x suf h
    simp only [List.flatten_cons] at h
    rcases List.append_eq_append_iff.mp h with ⟨a2, hpre, hrest⟩ | ⟨c2, hB0, hxs⟩
    · obtain ⟨bs1, B, bs2, p1, s1, hbs, hB, hpre2⟩ := ih a2 x suf hrest
      exact ⟨B0 :: bs1, B, bs2, p1, s1, by simp [hbs], hB,
        by simp [hpre, hpre2, List.append_assoc]⟩
    · cases c2 with
      | nil =>
        simp only [List.nil_append] at hxs
        obtain ⟨bs1, B, bs2, p1, s1, hbs, hB, hpre2⟩ := ih [] x suf hxs.symm
        have hj : bs1.flatten ++ p1 = [] := hpre2.symm
        rw [List.append_eq_nil] at hj
        refine ⟨B0 :: bs1, B, bs2, p1, s1, by simp [hbs], hB, ?_⟩
        simp [hB0, hj.1, hj.2]
      | cons xc c3 =>
        obtain ⟨hx, hc⟩ := List.cons.injEq x suf xc (c3 ++ bs.flatten) ▸ hxs
        exact ⟨[], B0, bs, pre, c3, by simp, by rw [hB0, hx], by simp⟩

/-- `List.Forall₂` membership projection, left to right. -/
theorem forall2_mem_left {α β : Type} {R : α → β → Prop} :
    ∀ {as : List α} {bs : List β}, List.Forall₂ R as bs →
      ∀ {a : α}, a ∈ as → ∃ b, b ∈ bs ∧ R a b := by
  intro as bs h
  induction h with
  | nil => intro a ha; cases ha
  | cons hR hall ih =>
    intro a ha
    rcases List.mem_cons.mp ha with rfl | ha2
    · exact ⟨_, List.mem_cons_self _ _, hR⟩
    · obtain ⟨b, hb, hRb⟩ := ih ha2
      exact ⟨b, List.mem_cons_of_mem _ hb, hRb⟩

/-- `List.Forall₂` membership projection, right to left. -/
theorem forall2_mem_right {α β : Type} {R : α → β → Prop} :
    ∀ {as : List α} {bs : List β}, List.Forall₂ R as bs →
      ∀ {b : β}, b ∈ bs → ∃ a, a ∈ as ∧ R a b := by
  intro as bs h
  induction h with
  | nil => intro b hb; cases hb
  | cons hR hall ih =>
    intro b hb
    rcases List.mem_cons.mp hb with rfl | hb2
    · exact ⟨_, List.mem_cons_self _ _, hR⟩
    · obtain ⟨a, ha, hRa⟩ := ih hb2
      exact ⟨a, List.mem_cons_of_mem _ ha, hRa⟩

/-- Single-step ordering invariant of the cascade: wherever the output
list is split at an occurrence of a profile `x`, every parent of `x`
(an entry of its `parent` file) already occurs in the part before it —
the source appends a profile only after recursively processing all of
its parents. -/
theorem ordered_single (fs : ProfileFS) :
    ∀ (fuel : Nat) (cur : String) (l : List String),
      addProfile fs fuel cur [] = some (Except.ok l) →
      ∀ (pre : List String) (x : String) (suf : List String),
        l = pre ++ x :: suf → ∀ p, IsParent fs x p → p ∈ pre := by
  intro fuel
  induction fuel with
  | zero =>
    intro cur l h
    exact absurd h (by simp [addProfile])
  | succ fuel ih =>
    intro cur l h pre x suf hsplit p hpar
    rcases (addProfile_ok_inv fs fuel cur l h).2 with
      ⟨hnone, hl⟩ | ⟨raw, blocks, hraw, hemp, hall, hl⟩
    · rw [hl] at hsplit
      have := split_snoc ([] : List String) cur pre x suf (by simpa using hsplit.symm)
      rcases this with ⟨hpre, hx, hsuf⟩ | ⟨suf2, hsuf, habs⟩
      · subst hx
        obtain ⟨raw2, hraw2, _⟩ := hpar
        exact absurd hraw2 (by simp [hnone])
      · exact absurd habs (by simp)
    · rw [hl] at hsplit
      rcases split_snoc blocks.flatten cur pre x suf hsplit.symm with
        ⟨hpre, hx, hsuf⟩ | ⟨suf2, hsuf, hmid⟩
      · -- x is the current profile itself; its parents live in the blocks
        subst hx
        obtain ⟨raw2, hraw2, hpmem⟩ := hpar
        rw [hraw] at hraw2
        obtain rfl : raw = raw2 := Option.some.inj hraw2
        obtain ⟨q, hq, hqp⟩ := List.mem_map.mp hpmem
        obtain ⟨B, hB, hexq, hrun⟩ := forall2_mem_left hall hq
        obtain ⟨B0, hB0⟩ := addProfile_last fs fuel (fs.normJoin x q) B hrun
        have hpB : p ∈ B := by
          rw [hB0, ← hqp]
          simp
        rw [hpre]
        exact List.mem_flatten.mpr ⟨B, hB, hpB⟩
      · -- x occurs inside one of the parent blocks
        obtain ⟨bs1, B, bs2, p1, s1, hbs, hBsplit, hpre1⟩ :=
          flatten_split blocks pre x suf2 hmid
        have hBmem : B ∈ blocks := by
          rw [hbs]
          exact List.mem_append_right _ (List.mem_cons_self _ _)
        obtain ⟨q, hq, hexq, hrun⟩ := forall2_mem_right hall hBmem
        have hpin : p ∈ p1 := ih (fs.normJoin cur q) B hrun p1 x s1 hBsplit p hpar
        rw [hpre1]
        exact List.mem_append_right _ hpin

/-- Ancestor ordering: wherever the output list is split at an
occurrence of a profile `x`, every ancestor of `x` (transitive closure
of `parent` references) already occurs before it. -/
theorem ordered_anc (fs : ProfileFS) (fuel : Nat) (cur : String)
    (l : List String) (h : addProfile fs fuel cur [] = some (Except.ok l)) :
    ∀ (pre : List String) (x : String) (suf : List String),
      l = pre ++ x :: suf → ∀ a, Ancestor fs a x → a ∈ pre := by
  have key : ∀ (a x : String), Ancestor fs a x →
      ∀ (pre : List String) (suf : List String), l = pre ++ x :: suf → a ∈ pre := by
    intro a x hanc
    induction hanc with
    | single hpar =>
      intro pre suf hsplit
      exact ordered_single fs fuel cur l h pre _ suf hsplit a hpar
    | tail hchain hpar ihc =>
      intro pre suf hsplit
      rename_i b c
      have hbpre : b ∈ pre := ordered_single fs fuel cur l h pre c suf hsplit b hpar
      obtain ⟨pre1, suf1, hpre⟩ := List.append_of_mem hbpre
      have hsplit2 : l = pre1 ++ b :: (suf1 ++ c :: suf) := by
        rw [hsplit, hpre]
        simp
      have := ihc pre1 (suf1 ++ c :: suf) hsplit2
      rw [hpre]
      exact List.mem_append_left _ this
  intro pre x suf hsplit a hanc
  exact key a x hanc pre suf hsplit

/-! ## `LocationsManager.__init__` profile-list computation

Embedding of the section of `__init__` that builds `self.profiles`
(lines 69-97 of `LocationsManager.py`): if a profile path was selected,
run `_addProfile` on its realpath; a `ParseError` is caught and resets
`self.profiles` to `[]`; afterwards, when user config is enabled and at
least one profile resolved and the custom profile directory exists, it
is appended as the highest-precedence entry. -/

/-- Environment for the `__init__` profile computation: the profile
filesystem, `os.path.realpath`, the recursion budget, `self._user_config`,
and existence / path of `{config_root}/etc/portage/profile`. -/
structure LocEnv where
  fs : ProfileFS
  realpath : String → String
  fuel : Nat
  userConfig : Bool
  customProfExists : Bool
  customProf : String

/-- Shallow embedding of the `self.profiles` computation of
`LocationsManager.__init__`.  `none` models non-termination of the
recursive walk; `some l` models a normal construction with
`self.profiles = tuple(l)`.  A falsy `profile_path` (python `None` or
`""`) skips resolution entirely. -/
def computeProfiles (env : LocEnv) (profilePath : Option String) : Option (List String) :=
  let base : Option (List String) :=
    match profilePath with
    | none => some []
    | some p =>
      if p = "" then some []
      else
        match addProfile env.fs env.fuel (env.realpath p) [] with
        | none => none
        | some (Except.ok l) => some l
        | some (Except.error _) => some []
  match base with
  | none => none
  | some profiles =>
    if env.userConfig = true ∧ profiles ≠ [] ∧ env.customProfExists = true
    then some (profiles ++ [env.customProf])
    else some profiles

/-- A concrete diamond-inheritance profile graph: `r` has parents `a`
then `b` (in parent-file order), each of which has the single parent
`base`; `base` is a leaf. -/
def diamondFS : ProfileFS where
  eapiLine := fun _ => none
  eapiSupported := fun _ => true
  parentRaw := fun c =>
    if c = "r" then some ["a", "b"]
    else if c = "a" then some ["base"]
    else if c = "b" then some ["base"]
    else none
  normJoin := fun _ p => p
  pexists := fun _ => true

/-- A profile whose `parent` file exists but contains only blank
lines. -/
def blankParentFS : ProfileFS where
  eapiLine := fun _ => none
  eapiSupported := fun _ => true
  parentRaw := fun c => if c = "/prof" then some ["", "  "] else none
  normJoin := fun _ p => p
  pexists := fun _ => true

/-- A profile with no `parent` file at all (a leaf). -/
def leafFS : ProfileFS where
  eapiLine := fun _ => none
  eapiSupported := fun _ => true
  parentRaw := fun _ => none
  normJoin := fun _ p => p
  pexists := fun _ => true

/-- Claim C4: for every acyclic profile graph (equivalently, every run
of the resolver that terminates successfully within its recursion
budget), the output list appends each directory only after all of its
parents have been processed, so every ancestor of a node precedes every
occurrence of that node; duplicates arising from diamond inheritance
are kept, not deduplicated (the concrete diamond graph resolves with
`base` listed twice, parents in parent-file order). -/
theorem claim_C4_cascade_order :
    (∀ (fs : ProfileFS) (fuel : Nat) (cur : String) (l pre suf : List String)
        (x a : String),
        addProfile fs fuel cur [] = some (Except.ok l) →
        l = pre ++ x :: suf → Ancestor fs a x → a ∈ pre) ∧
    addProfile diamondFS 5 "r" [] =
      some (Except.ok ["base", "a", "base", "b", "r"]) := by
  constructor
  · intro fs fuel cur l pre suf x a h hsplit hanc
    exact ordered_anc fs fuel cur l h pre x suf hsplit a hanc
  · decide

/-- Witness for C4 at the concrete diamond graph: `base` is an ancestor
of `r`, and indeed occurs before `r` in the resolved cascade. -/
theorem claim_C4_cascade_order_witness :
    "base" ∈ ["base", "a", "base", "b"] := by
  have h := claim_C4_cascade_order
  have hba : IsParent diamondFS "a" "base" := ⟨["base"], by decide, by decide⟩
  have har : IsParent diamondFS "r" "a" := ⟨["a", "b"], by decide, by decide⟩
  have hanc : Ancestor diamondFS "base" "r" :=
    Relation.TransGen.tail (Relation.TransGen.single hba) har
  exact h.1 diamondFS 5 "r" ["base", "a", "base", "b", "r"]
    ["base", "a", "base", "b"] [] "r" "base" h.2 (by decide) hanc

/-- Claim C6: an existing `parent` marker with zero non-blank entries
(e.g. a file of only blank lines) makes resolution fail with the fatal
empty-parent-file `ParseError`, while a profile with no `parent` file
resolves successfully as a leaf (appending just itself). -/
theorem claim_C6_empty_parent :
    (∀ (fs : ProfileFS) (fuel : Nat) (cur : String) (acc raw : List String),
        eapiOK fs cur = true → fs.parentRaw cur = some raw → grabfile raw = [] →
        addProfile fs (fuel + 1) cur acc =
          some (Except.error (PError.emptyParentFile cur))) ∧
    (∀ (fs : ProfileFS) (fuel : Nat) (cur : String) (acc : List String),
        eapiOK fs cur = true → fs.parentRaw cur = none →
        addProfile fs (fuel + 1) cur acc = some (Except.ok (acc ++ [cur]))) ∧
    (∀ raw : List String, (∀ s ∈ raw, isBlankLine s = true) → grabfile raw = []) := by
  refine ⟨?_, ?_, ?_⟩
  · intro fs fuel cur acc raw hok hraw hemp
    rw [addProfile_succ_of_eapiOK fs fuel cur acc hok, hraw]
    simp [hemp]
  · intro fs fuel cur acc hok hraw
    rw [addProfile_succ_of_eapiOK fs fuel cur acc hok, hraw]
  · intro raw hall
    unfold grabfile
    rw [List.filter_eq_nil_iff]
    intro a ha
    simp [hall a ha]

/-- Witness for C6: the blank-line `parent` file fails with
`EmptyParentFile`, the leaf profile resolves to itself. -/
theorem claim_C6_empty_parent_witness :
    addProfile blankParentFS 1 "/prof" [] =
        some (Except.error (PError.emptyParentFile "/prof")) ∧
    addProfile leafFS 1 "/leaf" [] = some (Except.ok ([] ++ ["/leaf"])) := by
  constructor
  · exact claim_C6_empty_parent.1 blankParentFS 0 "/prof" [] ["", "  "]
      (by decide) (by decide) (by decide)
  · exact claim_C6_empty_parent.2.1 leafFS 0 "/leaf" [] (by decide) rfl

/-- Claim C5: when `_addProfile` raises a `ParseError`, `__init__`
catches it (the construction still completes rather than aborting) and
the caller-visible profiles list is empty — no partial cascade is
visible (the custom-profile append is also skipped, since it requires a
non-empty cascade). Logging of the error is outside the model. -/
theorem claim_C5_parse_error_resets :
    ∀ (env : LocEnv) (p : String) (err : PError), p ≠ "" →
      addProfile env.fs env.fuel (env.realpath p) [] = some (Except.error err) →
      computeProfiles env (some p) = some [] := by
  intro env p err hp herr
  simp [computeProfiles, hp, herr]

/-- Concrete environment for the C5 witness: resolution of `/prof`
fails with `EmptyParentFile`. -/
def errLocEnv : LocEnv where
  fs := blankParentFS
  realpath := fun s => s
  fuel := 1
  userConfig := true
  customProfExists := true
  customProf := "/etc/portage/profile"

/-- Witness for C5: despite user config being enabled and the custom
profile directory existing, the failed cascade leaves the profiles list
empty. -/
theorem claim_C5_parse_error_resets_witness :
    computeProfiles errLocEnv (some "/prof") = some [] :=
  claim_C5_parse_error_resets errLocEnv "/prof" (PError.emptyParentFile "/prof")
    (by decide) (by decide)

/-! ## Atom resolution and uninstall dispatch (`action_uninstall`)

Embedding of `action_uninstall` from `pym/_emerge/funtoo.py`.  The
external predicates applied to each input token
(`is_valid_package_atom(x, allow_repo=True)`,
`is_valid_package_atom('=' + x)`, `x.startswith(os.sep)`,
`x.startswith(root)`, `x.startswith(SETPREFIX)`) and the result of
`dep_expand` (which may raise `AmbiguousPackageName` with a candidate
list) are recorded as oracle fields of `Token`; the installed-package
index (`vardb`) is the `Vardb` oracle. -/

/-- One user-supplied target string together with the results of the
external classification predicates the source applies to it. -/
structure Token where
  raw : String
  isValidAtom : Bool
  isValidAtomEq : Bool
  depExpand : Except (List String) String
  startsWithSep : Bool
  startsWithRoot : Bool
  isSetRef : Bool

/-- Classification outcome for one token, mirroring the four branches
of the `for x in files` loop. -/
inductive ClassStep where
  | atom : String → ClassStep
  | ownerLookup : String → ClassStep
  | setref : String → ClassStep
  | invalid : ClassStep

/-- The body of the `for x in files` loop of `action_uninstall`:
valid atom (with `=`-less tolerance for `clean`/`unmerge`) expanded via
`dep_expand` (ambiguity is an error), else absolute path (must be under
the target root, queued for ownership lookup), else a set reference
(only for `deselect`), else invalid. -/
def classifyToken (action : String) (t : Token) : ClassStep :=
  let ignoreMissingEq := action = "clean" ∨ action = "unmerge"
  if t.isValidAtom = true ∨ (ignoreMissingEq ∧ t.isValidAtomEq = true) then
    match t.depExpand with
    | Except.ok a => ClassStep.atom a
    | Except.error _ => ClassStep.invalid
  else if t.startsWithSep = true then
    if t.startsWithRoot = false then ClassStep.invalid
    else ClassStep.ownerLookup t.raw
  else if t.isSetRef = true ∧ action = "deselect" then ClassStep.setref t.raw
  else ClassStep.invalid

/-- The whole classification loop: `none` models the `return 1` taken
at the first invalid token (no atom list escapes), `some (va, lo)`
models reaching the end of the loop with `valid_atoms = va` and
`lookup_owners = lo` (each in input order). -/
def classifyAll (action : String) : List Token → Option (List String × List String)
  | [] => some ([], [])
  | t :: ts =>
    match classifyToken action t with
    | ClassStep.invalid => none
    | ClassStep.atom a => (classifyAll action ts).map (fun r => (a :: r.1, r.2))
    | ClassStep.ownerLookup x => (classifyAll action ts).map (fun r => (r.1, x :: r.2))
    | ClassStep.setref s => (classifyAll action ts).map (fun r => (s :: r.1, r.2))

/-- The installed-package index oracle: `iterOwners` models
`vardb._owners.iter_owners(relative_paths)` as the (ordered) stream of
`(pkg.mycpv, relative_path)` pairs it would yield; `auxSlot` models
`vardb.aux_get(cpv, ['SLOT'])[0]`; `cpvGetkey` models
`portage.cpv_getkey`; `isdir` models `os.path.isdir`. -/
structure Vardb where
  iterOwners : List String → List (String × String)
  auxSlot : String → String
  cpvGetkey : String → String
  isdir : String → Bool

/-- `search_for_multiple` computation: initially true iff more than one
path was queued; additionally set when any queued path is a
directory. -/
def searchForMultiple (db : Vardb) (lookupOwners : List String) : Bool :=
  lookupOwners.foldl (fun s x => if s = false ∧ db.isdir x = true then true else s)
    (decide (lookupOwners.length > 1))

/-- `owners.add(pkg.mycpv)`: python-set insertion, modelled as an
insertion-ordered duplicate-free list. -/
def addOwner (owners : List String) (cpv : String) : List String :=
  if cpv ∈ owners then owners else owners ++ [cpv]

/-- The `for pkg, relative_path in iter_owners(...)` loop: collect each
owner's cpv into the set, breaking after the first hit unless
`search_for_multiple` is set. -/
def collectOwners (sfm : Bool) : List (String × String) → List String → List String
  | [], owners => owners
  | pr :: rest, owners =>
    let owners2 := addOwner owners pr.1
    if sfm = true then collectOwners sfm rest owners2 else owners2

/-- Atom synthesis for one owning package: `category/name:slot` when the
recorded SLOT is non-empty, bare `category/name` otherwise (legacy
tolerance for packages installed without a slot). -/
def synthAtom (db : Vardb) (cpv : String) : String :=
  let slot := db.auxSlot cpv
  if slot = "" then db.cpvGetkey cpv else db.cpvGetkey cpv ++ ":" ++ slot

/-- `x[len(root)-1:]` applied to each queued path. -/
def relativePaths (root : String) (lookupOwners : List String) : List String :=
  lookupOwners.map (fun x => x.drop (root.length - 1))

/-- The `if lookup_owners:` block: compute `search_for_multiple`,
relativize the paths, iterate the reverse-ownership index, and
synthesize one atom per owning package found. -/
def resolveOwners (db : Vardb) (root : String) (lookupOwners : List String) : List String :=
  let sfm := searchForMultiple db lookupOwners
  let owners := collectOwners sfm (db.iterOwners (relativePaths root lookupOwners)) []
  owners.map (synthAtom db)

/-- Outcome of `action_uninstall`: `exitErr` models `return 1` (no atom
list escapes, nothing is dispatched); the other constructors model the
dispatch to `action_deselect`, `unmerge` (with its ordered flag), or
`action_depclean`, carrying the fully resolved atom list. -/
inductive UOutcome where
  | exitErr : UOutcome
  | deselect : List String → UOutcome
  | unmergeDispatch : List String → Bool → UOutcome
  | depcleanDispatch : List String → UOutcome
deriving DecidableEq

/-- Shallow embedding of `action_uninstall`: classify every input
token (any invalid token aborts the whole batch), then resolve queued
ownership lookups into synthesized atoms, fail if inputs were given but
nothing resolved, and finally dispatch: `deselect` to the world-set
deselection, `clean`/`unmerge` (and `prune` with `--nodeps`) to
`unmerge` — ordered exactly for `unmerge` — and the rest to
`action_depclean`. -/
def action_uninstall (db : Vardb) (root action : String) (files : List Token)
    (opts : List String) : UOutcome :=
  match classifyAll action files with
  | none => UOutcome.exitErr
  | some (validAtoms, lookupOwners) =>
    let ownerAtoms := if lookupOwners = [] then [] else resolveOwners db root lookupOwners
    let allAtoms := validAtoms ++ ownerAtoms
    if files.isEmpty = false ∧ allAtoms = [] then UOutcome.exitErr
    else if action = "deselect" then UOutcome.deselect allAtoms
    else if (action = "clean" ∨ action = "unmerge") ∨
        (action = "prune" ∧ "--nodeps" ∈ opts) then
      UOutcome.unmergeDispatch allAtoms (action = "unmerge")
    else UOutcome.depcleanDispatch allAtoms

theorem classifyToken_invalid (action : String) (t : Token)
    (h1 : t.isValidAtom = false) (h2 : t.isValidAtomEq = false)
    (h3 : t.startsWithSep = false ∨ t.startsWithRoot = false)
    (h4 : t.isSetRef = false ∨ action ≠ "deselect") :
    classifyToken action t = ClassStep.invalid := by
  unfold classifyToken
  rw [if_neg (by simp [h1, h2])]
  rcases h3 with h3 | h3
  · rw [if_neg (by simp [h3])]
    rcases h4 with h4 | h4
    · rw [if_neg (by simp [h4])]
    · rw [if_neg (by simp [h4])]
  · by_cases hsep : t.startsWithSep = true
    · rw [if_pos hsep, if_pos h3]
    · rw [if_neg hsep]
      rcases h4 with h4 | h4
      · rw [if_neg (by simp [h4])]
      · rw [if_neg (by simp [h4])]

theorem classifyAll_none_of_invalid (action : String) :
    ∀ (files : List Token) (t : Token), t ∈ files →
      classifyToken action t = ClassStep.invalid →
      classifyAll action files = none := by
  intro files
  induction files with
  | nil => intro t ht _; cases ht
  | cons u us ih =>
    intro t ht hinv
    rcases List.mem_cons.mp ht with rfl | ht2
    · simp [classifyAll, hinv]
    · cases hc : classifyToken action u <;>
        simp [classifyAll, hc, ih t ht2 hinv]

/-- Claim C7: an uninstall batch containing any token that is neither a
valid atom (with or without the `=`-less tolerance), nor an absolute
path under the target root, nor (for `deselect`) a set reference, makes
the whole `action_uninstall` call return the error exit before anything
is dispatched: the outcome carries no atom list at all. -/
theorem claim_C7_invalid_token_fails_batch :
    ∀ (db : Vardb) (root action : String) (files : List Token)
      (opts : List String) (t : Token),
      t ∈ files →
      t.isValidAtom = false → t.isValidAtomEq = false →
      (t.startsWithSep = false ∨ t.startsWithRoot = false) →
      (t.isSetRef = false ∨ action ≠ "deselect") →
      action_uninstall db root action files opts = UOutcome.exitErr := by
  intro db root action files opts t ht h1 h2 h3 h4
  unfold action_uninstall
  rw [classifyAll_none_of_invalid action files t ht
    (classifyToken_invalid action t h1 h2 h3 h4)]

/-- The trivial installed-package index (no owners). -/
def noneVardb : Vardb where
  iterOwners := fun _ => []
  auxSlot := fun _ => ""
  cpvGetkey := fun s => s
  isdir := fun _ => false

/-- A token failing every classification predicate. -/
def badToken : Token where
  raw := "not-an-atom!"
  isValidAtom := false
  isValidAtomEq := false
  depExpand := Except.error []
  startsWithSep := false
  startsWithRoot := false
  isSetRef := false

/-- A syntactically valid, unambiguous atom token. -/
def goodToken : Token where
  raw := "dev-vcs/git"
  isValidAtom := true
  isValidAtomEq := true
  depExpand := Except.ok "dev-vcs/git"
  startsWithSep := false
  startsWithRoot := false
  isSetRef := false

/-- Witness for C7: a batch with one valid and one invalid token fails
entirely — no partial atom list is dispatched. -/
theorem claim_C7_invalid_token_fails_batch_witness :
    action_uninstall noneVardb "/" "unmerge" [goodToken, badToken] [] =
      UOutcome.exitErr :=
  claim_C7_invalid_token_fails_batch noneVardb "/" "unmerge"
    [goodToken, badToken] [] badToken
    (List.mem_cons_of_mem goodToken (List.mem_cons_self badToken []))
    rfl rfl (Or.inl rfl) (Or.inl rfl)

/-- Index for the slot-"0" ownership scenario: `/usr/bin/foo` is owned
by `app-misc/foo-1.0`, installed with SLOT `0`. -/
def slot0Vardb : Vardb where
  iterOwners := fun _ => [("app-misc/foo-1.0", "/usr/bin/foo")]
  auxSlot := fun _ => "0"
  cpvGetkey := fun c => if c = "app-misc/foo-1.0" then "app-misc/foo" else c
  isdir := fun _ => false

/-- Index for the empty-slot (legacy) ownership scenario. -/
def noSlotVardb : Vardb where
  iterOwners := fun _ => [("app-misc/bar-2.0", "/usr/bin/bar")]
  auxSlot := fun _ => ""
  cpvGetkey := fun c => if c = "app-misc/bar-2.0" then "app-misc/bar" else c
  isdir := fun _ => false

/-- Claim C8: every owning package found by the reverse ownership
lookup is synthesized as `category/name:slot` when its recorded SLOT is
non-empty (so SLOT "0" yields `category/name:0`) and as the bare
`category/name` when its recorded SLOT is empty; the two concrete
scenarios evaluate accordingly. -/
theorem claim_C8_slot_synthesis :
    (∀ (db : Vardb) (root : String) (lookupOwners : List String) (cpv : String),
        cpv ∈ collectOwners (searchForMultiple db lookupOwners)
          (db.iterOwners (relativePaths root lookupOwners)) [] →
        (db.auxSlot cpv ≠ "" →
          db.cpvGetkey cpv ++ ":" ++ db.auxSlot cpv ∈
            resolveOwners db root lookupOwners) ∧
        (db.auxSlot cpv = "" →
          db.cpvGetkey cpv ∈ resolveOwners db root lookupOwners)) ∧
    resolveOwners slot0Vardb "/" ["/usr/bin/foo"] = ["app-misc/foo:0"] ∧
    resolveOwners noSlotVardb "/" ["/usr/bin/bar"] = ["app-misc/bar"] := by
  refine ⟨?_, by decide, by decide⟩
  intro db root lookupOwners cpv hmem
  constructor
  · intro hslot
    have hs : synthAtom db cpv = db.cpvGetkey cpv ++ ":" ++ db.auxSlot cpv := by
      simp [synthAtom, hslot]
    rw [← hs]
    exact List.mem_map_of_mem _ hmem
  · intro hslot
    have hs : synthAtom db cpv = db.cpvGetkey cpv := by simp [synthAtom, hslot]
    rw [← hs]
    exact List.mem_map_of_mem _ hmem

/-- Witness for C8: the slot-"0" package's synthesized atom is in the
resolved list. -/
theorem claim_C8_slot_synthesis_witness :
    slot0Vardb.cpvGetkey "app-misc/foo-1.0" ++ ":" ++
        slot0Vardb.auxSlot "app-misc/foo-1.0" ∈
      resolveOwners slot0Vardb "/" ["/usr/bin/foo"] :=
  (claim_C8_slot_synthesis.1 slot0Vardb "/" ["/usr/bin/foo"]
    "app-misc/foo-1.0" (by decide)).1 (by decide)

/-- Python-set accumulation over a whole owner stream. -/
def dedupOwners (cpvs : List String) : List String := cpvs.foldl addOwner []

theorem collectOwners_all (pairs : List (String × String)) :
    ∀ acc, collectOwners true pairs acc = (pairs.map Prod.fst).foldl addOwner acc := by
  induction pairs with
  | nil => intro acc; rfl
  | cons pr rest ih => intro acc; simp [collectOwners, ih]

theorem searchForMultiple_single (db : Vardb) (p : String) :
    searchForMultiple db [p] = db.isdir p := by
  cases h : db.isdir p <;>
    simp [searchForMultiple, h]

/-- Claim C10: with exactly one queued path, the ownership lookup stops
at the first owner found only when that path is not a directory; a
single directory path sets `search_for_multiple` and every owning
package in the stream is collected (deduplicated) and synthesized into
an atom. -/
theorem claim_C10_single_path_lookup :
    ∀ (db : Vardb) (root p : String),
      (db.isdir p = false → ∀ (pkg rel : String) (rest : List (String × String)),
        db.iterOwners (relativePaths root [p]) = (pkg, rel) :: rest →
        resolveOwners db root [p] = [synthAtom db pkg]) ∧
      (db.isdir p = true →
        resolveOwners db root [p] =
          (dedupOwners ((db.iterOwners (relativePaths root [p])).map Prod.fst)).map
            (synthAtom db)) := by
  intro db root p
  constructor
  · intro hdir pkg rel rest hiter
    unfold resolveOwners
    rw [searchForMultiple_single db p, hdir, hiter]
    simp [collectOwners, addOwner]
  · intro hdir
    show (collectOwners (searchForMultiple db [p])
        (db.iterOwners (relativePaths root [p])) []).map (synthAtom db) = _
    rw [searchForMultiple_single db p, hdir, collectOwners_all]
    rfl

/-- Index whose single queried path is a directory claimed by several
packages (one of them twice in the stream). -/
def dirVardb : Vardb where
  iterOwners := fun _ =>
    [("app-a/x-1.0", "doc/x"), ("app-a/y-1.0", "doc/y"), ("app-a/x-1.0", "doc/z")]
  auxSlot := fun _ => "0"
  cpvGetkey := fun c => c
  isdir := fun _ => true

/-- Witness for C10: both branches at concrete inputs — the
non-directory single path stops at the first owner, the directory path
enumerates all owners. -/
theorem claim_C10_single_path_lookup_witness :
    resolveOwners slot0Vardb "/" ["/usr/bin/foo"] =
        [synthAtom slot0Vardb "app-misc/foo-1.0"] ∧
    resolveOwners dirVardb "/" ["/usr/share/doc"] =
      (dedupOwners ((dirVardb.iterOwners (relativePaths "/" ["/usr/share/doc"])).map
        Prod.fst)).map (synthAtom dirVardb) :=
  ⟨(claim_C10_single_path_lookup slot0Vardb "/" "/usr/bin/foo").1 rfl
      "app-misc/foo-1.0" "/usr/bin/foo" [] rfl,
    (claim_C10_single_path_lookup dirVardb "/" "/usr/share/doc").2 rfl⟩

/-! ## Repository synchronizer (`action_sync`)

Embedding of `action_sync` from `pym/_emerge/funtoo.py` (lines 28-168),
starting from the point where `myportdir` is known.  Every external
probe (`os.path.exists`, `os.rmdir` success, `find_binary`) and every
external process exit status (`install -d`, the `su` reachability
probes, `git clone`, `mv`, `rm -rf`, `git pull`,
`git_sync_timestamps`) is an oracle field of `SyncEnv`.  The model
tracks the existence of the three working directories
(`work_path = repoDir + ".sync"`, `repo_path_tmp = work/repoDir`,
`repo_path_fin = repoDir`) and a trace of the external steps performed.
The steps after the timestamp synchronization (cache update, config
reloads, package moves, config-file report, post-sync hook, news check)
never change the returned status — the hook's failure is only printed —
so they are abstracted into the final `ret 0` (`os.EX_OK`). -/

/-- External operations performed by `action_sync`, in order. -/
inductive SyncStep where
  | rmdirTmp | rmdirWork | makedirs | installDir | reachProbe
  | gitClone | moveFinal | rmTmpRecursive
  | updateProbe | gitPull | logPullError
  | syncTimestamps
deriving DecidableEq

/-- How `action_sync` terminates: `ret n` models `return n`,
`fatal n` models `sys.exit(n)`, and `unboundLocal` models the crash at
`sys.exit(retval)` — `retval` is not assigned anywhere before that
line, so the interpreter raises `UnboundLocalError` instead of exiting
with the intended status. -/
inductive SyncResult where
  | ret : Nat → SyncResult
  | fatal : Nat → SyncResult
  | unboundLocal : SyncResult
deriving DecidableEq

/-- Existence of the three sync working directories. -/
structure SyncFS where
  workEx : Bool
  tmpEx : Bool
  finEx : Bool
deriving DecidableEq

/-- Oracle environment for one `action_sync` run: initial filesystem
facts and the exit status each external process would produce.
`syncuri` is the value of the SYNC setting after the source's
`.strip()` (line 28). -/
structure SyncEnv where
  gitFound : Bool
  portdirExists : Bool
  syncuri : String
  workExists : Bool
  tmpExists : Bool
  workEmpty : Bool
  tmpEmpty : Bool
  commonExists : Bool
  installStatus : Nat
  probeStatus : Nat
  cloneStatus : Nat
  mvStatus : Nat
  rmStatus : Nat
  gitMarker : Bool
  updProbeStatus : Nat
  pullStatus : Nat
  timestampStatus : Nat

/-- Result of a run: how it terminated, the final state of the working
directories, and the external steps performed. -/
structure SyncRun where
  result : SyncResult
  fs : SyncFS
  steps : List SyncStep
deriving DecidableEq

/-- Lines 130-168 of `action_sync`, shared by both branches: run
`git_sync_timestamps`; on a non-zero status the source executes
`sys.exit(retval)` where `retval` is unbound (`UnboundLocalError`);
otherwise the remaining collaborator steps run and the function returns
`os.EX_OK` (0). -/
def afterSync (e : SyncEnv) (fs : SyncFS) (steps : List SyncStep) : SyncRun :=
  let steps2 := steps ++ [SyncStep.syncTimestamps]
  if e.timestampStatus ≠ 0 then
    { result := SyncResult.unboundLocal, fs := fs, steps := steps2 }
  else
    { result := SyncResult.ret 0, fs := fs, steps := steps2 }

/-- Shallow embedding of `action_sync`.  Bootstrap branch (repository
path absent): check SYNC is set; for `repo_path_tmp` then `work_path`,
if the directory exists try a non-recursive `os.rmdir` — an `OSError`
(directory non-empty) prints "exists and contains files. Please
remove..." and exits 1; create `common_path` if missing; `install -d`
the work directory (non-zero exit ⇒ `sys.exit(1)`); `su` reachability
probe (non-zero ⇒ exit 1); `git clone` as the sync user into the tmp
path (non-zero ⇒ exit 1); `mv` tmp to final (non-zero ⇒ exit 1);
finally `rm -rf repo_path_tmp` — note: the tmp path, which was just
moved away, not `work_path` — with its status ignored.  Update branch
(path exists): require the `.git` marker (else exit 1), `su`
reachability probe (non-zero ⇒ exit 1), `git pull` (non-zero status is
logged and returned as-is).  Both branches then converge on
`afterSync`. -/
def action_sync (e : SyncEnv) : SyncRun :=
  let fs0 : SyncFS :=
    { workEx := e.workExists, tmpEx := e.tmpExists, finEx := e.portdirExists }
  if e.gitFound = false then
    { result := SyncResult.ret 1, fs := fs0, steps := [] }
  else if e.portdirExists = false then
    -- bootstrap clone branch
    if e.syncuri = "" then
      { result := SyncResult.ret 1, fs := fs0, steps := [] }
    else if e.tmpExists = true ∧ e.tmpEmpty = false then
      { result := SyncResult.fatal 1, fs := fs0, steps := [] }
    else
      let fs1 := { fs0 with tmpEx := false }
      let steps1 := if e.tmpExists = true then [SyncStep.rmdirTmp] else []
      if e.workExists = true ∧ e.workEmpty = false then
        { result := SyncResult.fatal 1, fs := fs1, steps := steps1 }
      else
        let fs2 := { fs1 with workEx := false }
        let steps2 := steps1 ++ (if e.workExists = true then [SyncStep.rmdirWork] else [])
        let steps3 := steps2 ++ (if e.commonExists = false then [SyncStep.makedirs] else [])
        let steps4 := steps3 ++ [SyncStep.installDir]
        if e.installStatus ≠ 0 then
          { result := SyncResult.fatal 1, fs := fs2, steps := steps4 }
        else
          let fs3 := { fs2 with workEx := true }
          let steps5 := steps4 ++ [SyncStep.reachProbe]
          if e.probeStatus ≠ 0 then
            { result := SyncResult.fatal 1, fs := fs3, steps := steps5 }
          else
            let steps6 := steps5 ++ [SyncStep.gitClone]
            if e.cloneStatus ≠ 0 then
              { result := SyncResult.fatal 1, fs := fs3, steps := steps6 }
            else
              let fs4 := { fs3 with tmpEx := true }
              let steps7 := steps6 ++ [SyncStep.moveFinal]
              if e.mvStatus ≠ 0 then
                { result := SyncResult.fatal 1, fs := fs4, steps := steps7 }
              else
                let fs5 := { fs4 with tmpEx := false, finEx := true }
                let steps8 := steps7 ++ [SyncStep.rmTmpRecursive]
                afterSync e fs5 steps8
  else
    -- incremental update branch
    if e.gitMarker = false then
      { result := SyncResult.fatal 1, fs := fs0, steps := [] }
    else
      let stepsU1 := [SyncStep.updateProbe]
      if e.updProbeStatus ≠ 0 then
        { result := SyncResult.fatal 1, fs := fs0, steps := stepsU1 }
      else
        let stepsU2 := stepsU1 ++ [SyncStep.gitPull]
        if e.pullStatus ≠ 0 then
          { result := SyncResult.ret e.pullStatus, fs := fs0,
            steps := stepsU2 ++ [SyncStep.logPullError] }
        else
          afterSync e fs0 stepsU2

/-- Bootstrap sync where the temporary work directory pre-exists but is
empty, and every external step succeeds. -/
def emptyWorkEnv : SyncEnv where
  gitFound := true
  portdirExists := false
  syncuri := "git://github.com/funtoo/ports-2012.git"
  workExists := true
  tmpExists := false
  workEmpty := true
  tmpEmpty := true
  commonExists := true
  installStatus := 0
  probeStatus := 0
  cloneStatus := 0
  mvStatus := 0
  rmStatus := 0
  gitMarker := false
  updProbeStatus := 0
  pullStatus := 0
  timestampStatus := 0

/-- Counterexample to claim C1 as stated: in a bootstrap sync whose
work directory already exists (but is empty), the sync does **not**
abort — it removes the pre-existing directory itself with a
non-recursive `os.rmdir` and proceeds to a successful clone (overall
status OK).  The fatal "please remove" path is taken only when the
`rmdir` fails, i.e. when the directory is non-empty. -/
theorem claim_C1_counterexample :
    emptyWorkEnv.portdirExists = false ∧ emptyWorkEnv.workExists = true ∧
    (action_sync emptyWorkEnv).result = SyncResult.ret 0 ∧
    SyncStep.rmdirWork ∈ (action_sync emptyWorkEnv).steps := by
  decide

/-- Claim C1, amended: in a bootstrap sync, if the temporary work
directory or the nested temporary clone path exists **and is
non-empty** (so the non-recursive `os.rmdir` fails), the sync aborts
with the fatal "remove manually" error before creating, cloning, or
recursively removing anything, and the non-empty directory itself is
left in place; a pre-existing but *empty* directory is instead removed
non-recursively and the sync proceeds. -/
theorem claim_C1_preexisting_nonempty_fatal :
    ∀ e : SyncEnv, e.gitFound = true → e.portdirExists = false → e.syncuri ≠ "" →
      ((e.tmpExists = true ∧ e.tmpEmpty = false) ∨
       (e.workExists = true ∧ e.workEmpty = false)) →
      (action_sync e).result = SyncResult.fatal 1 ∧
      SyncStep.installDir ∉ (action_sync e).steps ∧
      SyncStep.gitClone ∉ (action_sync e).steps ∧
      SyncStep.rmTmpRecursive ∉ (action_sync e).steps ∧
      (e.tmpExists = true ∧ e.tmpEmpty = false → (action_sync e).fs.tmpEx = true) ∧
      (e.workExists = true ∧ e.workEmpty = false → (action_sync e).fs.workEx = true) := by
  intro e hgit hport huri hpre
  by_cases htmp : e.tmpExists = true ∧ e.tmpEmpty = false
  · obtain ⟨ht1, ht2⟩ := htmp
    simp [action_sync, hgit, hport, huri, ht1, ht2]
    exact fun h _ => h
  · rcases hpre with htmp2 | ⟨hw1, hw2⟩
    · exact absurd htmp2 htmp
    · cases hte : e.tmpExists with
      | true =>
        have hemp : e.tmpEmpty = true := by
          cases h2 : e.tmpEmpty
          · exact absurd ⟨hte, h2⟩ htmp
          · rfl
        simp [action_sync, hgit, hport, huri, hte, hemp, hw1, hw2]
      | false =>
        simp [action_sync, hgit, hport, huri, hte, hw1, hw2]

/-- Bootstrap sync where the work directory pre-exists and is
non-empty. -/
def nonEmptyWorkEnv : SyncEnv :=
  { emptyWorkEnv with workEmpty := false }

/-- Witness for the amended C1 at a concrete environment with a
non-empty pre-existing work directory. -/
theorem claim_C1_preexisting_nonempty_fatal_witness :
    (action_sync nonEmptyWorkEnv).result = SyncResult.fatal 1 ∧
    SyncStep.installDir ∉ (action_sync nonEmptyWorkEnv).steps ∧
    SyncStep.gitClone ∉ (action_sync nonEmptyWorkEnv).steps ∧
    SyncStep.rmTmpRecursive ∉ (action_sync nonEmptyWorkEnv).steps ∧
    (nonEmptyWorkEnv.tmpExists = true ∧ nonEmptyWorkEnv.tmpEmpty = false →
      (action_sync nonEmptyWorkEnv).fs.tmpEx = true) ∧
    (nonEmptyWorkEnv.workExists = true ∧ nonEmptyWorkEnv.workEmpty = false →
      (action_sync nonEmptyWorkEnv).fs.workEx = true) :=
  claim_C1_preexisting_nonempty_fatal nonEmptyWorkEnv rfl rfl (by decide)
    (Or.inr ⟨rfl, rfl⟩)

/-- Bootstrap sync with no pre-existing directories where every
external step exits 0. -/
def cleanBootstrapEnv : SyncEnv where
  gitFound := true
  portdirExists := false
  syncuri := "git://github.com/funtoo/ports-2012.git"
  workExists := false
  tmpExists := false
  workEmpty := true
  tmpEmpty := true
  commonExists := true
  installStatus := 0
  probeStatus := 0
  cloneStatus := 0
  mvStatus := 0
  rmStatus := 0
  gitMarker := false
  updProbeStatus := 0
  pullStatus := 0
  timestampStatus := 0

/-- Claim C2 evaluated at its failing input: in a fully successful
bootstrap sync (clone and move both exit 0), the overall status is OK
and the final repository directory exists, but the cleanup step runs
`rm -rf repo_path_tmp` — the nested path that was just moved away —
instead of `work_path`, so the temporary work directory is **still
present** afterwards, contradicting the claim (and the source's own
comment, which says `work_path` is removed). -/
theorem claim_C2_work_dir_left_behind :
    cleanBootstrapEnv.cloneStatus = 0 ∧ cleanBootstrapEnv.mvStatus = 0 ∧
    (action_sync cleanBootstrapEnv).result = SyncResult.ret 0 ∧
    (action_sync cleanBootstrapEnv).fs.finEx = true ∧
    SyncStep.rmTmpRecursive ∈ (action_sync cleanBootstrapEnv).steps ∧
    (action_sync cleanBootstrapEnv).fs.workEx = true := by
  decide

/-- Update sync whose `git pull` succeeds but whose
`git_sync_timestamps` step returns 2. -/
def timestampFailEnv : SyncEnv where
  gitFound := true
  portdirExists := true
  syncuri := ""
  workExists := false
  tmpExists := false
  workEmpty := true
  tmpEmpty := true
  commonExists := true
  installStatus := 0
  probeStatus := 0
  cloneStatus := 0
  mvStatus := 0
  rmStatus := 0
  gitMarker := true
  updProbeStatus := 0
  pullStatus := 0
  timestampStatus := 2

/-- Claim C3 evaluated at its failing input: when the
timestamp-synchronization step returns a non-zero status (2 here), the
source executes `sys.exit(retval)` — but `retval` is not assigned
anywhere before that line, so the run ends in `UnboundLocalError`
rather than propagating exit code 2. -/
theorem claim_C3_timestamp_exit_unbound :
    timestampFailEnv.timestampStatus = 2 ∧
    (action_sync timestampFailEnv).result = SyncResult.unboundLocal := by
  decide

/-- Claim C9: in an update sync (repository path exists), a missing
`.git` marker is fatal before the pull step is ever invoked; and when
the pull step does run and exits non-zero, that exit code is logged and
returned to the caller as-is (a `return`, not a `sys.exit`). -/
theorem claim_C9_update_branch :
    ∀ e : SyncEnv, e.gitFound = true → e.portdirExists = true →
      ((e.gitMarker = false →
          (action_sync e).result = SyncResult.fatal 1 ∧
          SyncStep.gitPull ∉ (action_sync e).steps) ∧
       (e.gitMarker = true → e.updProbeStatus = 0 → e.pullStatus ≠ 0 →
          (action_sync e).result = SyncResult.ret e.pullStatus ∧
          SyncStep.logPullError ∈ (action_sync e).steps)) := by
  intro e hgit hport
  constructor
  · intro hmark
    simp [action_sync, hgit, hport, hmark]
  · intro hmark hprobe hpull
    simp [action_sync, hgit, hport, hmark, hprobe, hpull]

/-- Update sync against a directory lacking the `.git` marker. -/
def noMarkerEnv : SyncEnv :=
  { timestampFailEnv with gitMarker := false, timestampStatus := 0 }

/-- Update sync whose `git pull` exits 3. -/
def pullFailEnv : SyncEnv :=
  { timestampFailEnv with pullStatus := 3, timestampStatus := 0 }

/-- Witness for C9 at concrete environments: the marker-less update is
fatal without a pull; the failed pull's status 3 is returned as-is and
logged. -/
theorem claim_C9_update_branch_witness :
    ((action_sync noMarkerEnv).result = SyncResult.fatal 1 ∧
      SyncStep.gitPull ∉ (action_sync noMarkerEnv).steps) ∧
    ((action_sync pullFailEnv).result = SyncResult.ret 3 ∧
      SyncStep.logPullError ∈ (action_sync pullFailEnv).steps) :=
  ⟨(claim_C9_update_branch noMarkerEnv rfl rfl).1 rfl,
   (claim_C9_update_branch pullFailEnv rfl rfl).2 rfl rfl (by decide)⟩

end Funtoo
